import Mathlib

/-!
# Verification of the voxel-world simulation engine

Shallow embedding, over `ℚ`, of the spatial-simulation core of
`src/components/VoxelWorld.tsx`: the sparse voxel occupancy store, the
character collision resolver (gravity / grounding / step-up / axis sliding),
the pedestrian path follower with spring-damper displacement, the autonomous
traffic controller (car following, intersection yield, speed clamping), and
the pairwise vehicle impulse resolution.

Modelling conventions:
* JavaScript `number` is modelled by `ℚ`.  Every quantity the engine
  compares or assigns is translated exactly; comparisons of Euclidean
  distances `‖a-b‖ < r` (`THREE.Vector3.distanceTo`) are translated to the
  equivalent squared form `distSq a b < r^2` (both sides nonnegative), so
  that all definitions stay executable over `ℚ`.
* `Math.floor` is `Int.floor`, `Math.round x` is `⌊x + 1/2⌋` (JS rounds
  half-up), `Math.abs` is `|·|`, and the JS remainder `a % b` truncates the
  quotient toward zero (`jsMod`).
* Spline curves (`THREE.CatmullRomCurve3`) are used by the engine only
  through `getPointAt : t ∈ [0,1] → point` and `getLength()`.  A curve is
  therefore embedded as a record carrying its `pointAt` function and its
  arc length as a rational parameter.  Object identity (`===`) on curves is
  modelled by an optional numeric id (stored sidewalk curves carry `some`
  ids; a synthesized bridge curve carries `none`, hence is distinct from
  every stored curve).
-/

/-- 3-component vector over `ℚ` (models `THREE.Vector3`). -/
structure Vec3 where
  x : ℚ
  y : ℚ
  z : ℚ
  deriving DecidableEq, Repr

namespace Vec3

def add (a b : Vec3) : Vec3 := ⟨a.x + b.x, a.y + b.y, a.z + b.z⟩

def sub (a b : Vec3) : Vec3 := ⟨a.x - b.x, a.y - b.y, a.z - b.z⟩

def smul (a : Vec3) (c : ℚ) : Vec3 := ⟨a.x * c, a.y * c, a.z * c⟩

def dot (a b : Vec3) : ℚ := a.x * b.x + a.y * b.y + a.z * b.z

/-- Squared Euclidean distance (`distanceTo` squared). -/
def distSq (a b : Vec3) : ℚ :=
  (a.x - b.x) ^ 2 + (a.y - b.y) ^ 2 + (a.z - b.z) ^ 2

end Vec3

/-- Truncation toward zero, the rounding JS `%` applies to the quotient. -/
def ratTrunc (q : ℚ) : ℤ := q.num.tdiv q.den

/-- JavaScript remainder `a % b` (sign follows the dividend). -/
def jsMod (a b : ℚ) : ℚ := a - b * (ratTrunc (a / b) : ℚ)

/-- JS `Math.round` (half toward positive infinity). -/
def jsRound (v : ℚ) : ℤ := ⌊v + 1 / 2⌋

/-- A stored voxel (interface `Voxel` of the app: id, position, color,
optional size and glow). -/
structure Voxel where
  id : ℤ
  position : Vec3
  color : String
  size : ℚ
  glow : Bool
  deriving DecidableEq, Repr

/-- The occupancy map is rebuilt from the voxel list by
`voxels.forEach(v => state.voxelMap.set(v.position.join(','), v))`;
`Map.set` lets the last write for a key win, so a lookup returns the last
voxel of the list whose position equals the key.  Keys are the exact
(unfloored) position triples: `join(',')` is injective on numeric triples. -/
def mapFind (voxels : List Voxel) (k : Vec3) : Option Voxel :=
  (voxels.filter (fun v => v.position = k)).getLast?

/-- `state.voxelMap.has(key)`. -/
def mapHas (voxels : List Voxel) (k : Vec3) : Bool :=
  (mapFind voxels k).isSome

/-- `isVoxelAt` (line 1317): floor each query coordinate and look the key up. -/
def isVoxelAt (voxels : List Voxel) (x y z : ℚ) : Bool :=
  mapHas voxels ⟨(⌊x⌋ : ℚ), (⌊y⌋ : ℚ), (⌊z⌋ : ℚ)⟩

/-- `handleAddVoxel` in the app shell appends a fresh voxel to the list. -/
def addVoxel (voxels : List Voxel) (v : Voxel) : List Voxel := voxels ++ [v]

/-- `handleRemoveVoxel` filters the list by id. -/
def removeVoxel (voxels : List Voxel) (id : ℤ) : List Voxel :=
  voxels.filter (fun v => v.id ≠ id)

/-- The twelve body sample points of `checkCharacterVoxelCollision`
(lines 1351-1366): four low corners `0.51` above the feet, four mid-body
corners, four corners `0.1` below the head. -/
def characterSamplePoints (width height : ℚ) : List Vec3 :=
  let hw := width / 2
  [ ⟨-hw, -height / 2 + 51 / 100, -hw⟩, ⟨hw, -height / 2 + 51 / 100, -hw⟩,
    ⟨-hw, -height / 2 + 51 / 100, hw⟩, ⟨hw, -height / 2 + 51 / 100, hw⟩,
    ⟨-hw, 0, -hw⟩, ⟨hw, 0, -hw⟩,
    ⟨-hw, 0, hw⟩, ⟨hw, 0, hw⟩,
    ⟨-hw, height / 2 - 1 / 10, -hw⟩, ⟨hw, height / 2 - 1 / 10, -hw⟩,
    ⟨-hw, height / 2 - 1 / 10, hw⟩, ⟨hw, height / 2 - 1 / 10, hw⟩ ]

/-- `checkCharacterVoxelCollision` (lines 1351-1366). -/
def checkCharacterVoxelCollision (voxels : List Voxel) (pos : Vec3)
    (width height : ℚ) : Bool :=
  (characterSamplePoints width height).any fun p =>
    isVoxelAt voxels (pos.x + p.x) (pos.y + p.y) (pos.z + p.z)

section VoxelStoreFacts

theorem mapFind_addVoxel_self (vs : List Voxel) (v : Voxel) :
    mapFind (addVoxel vs v) v.position = some v := by
  simp [mapFind, addVoxel, List.filter_append, List.getLast?_append]

theorem isVoxelAt_addVoxel_int (vs : List Voxel) (v : Voxel) (a b c : ℤ)
    (hpos : v.position = ⟨(a : ℚ), (b : ℚ), (c : ℚ)⟩)
    (x y z : ℚ) (hx : ⌊x⌋ = a) (hy : ⌊y⌋ = b) (hz : ⌊z⌋ = c) :
    isVoxelAt (addVoxel vs v) x y z = true := by
  have : mapFind (addVoxel vs v) ⟨(a : ℚ), (b : ℚ), (c : ℚ)⟩ = some v := by
    rw [← hpos]; exact mapFind_addVoxel_self vs v
  simp [isVoxelAt, mapHas, hx, hy, hz, this]

theorem isVoxelAt_of_not_mem (vs : List Voxel) (x y z : ℚ)
    (h : ∀ w ∈ vs, w.position ≠ ⟨(⌊x⌋ : ℚ), (⌊y⌋ : ℚ), (⌊z⌋ : ℚ)⟩) :
    isVoxelAt vs x y z = false := by
  simp only [isVoxelAt, mapHas, mapFind]
  have : vs.filter (fun v => v.position = ⟨(⌊x⌋ : ℚ), (⌊y⌋ : ℚ), (⌊z⌋ : ℚ)⟩) = [] := by
    refine List.filter_eq_nil_iff.mpr ?_
    intro w hw
    simp [h w hw]
  simp [this]

end VoxelStoreFacts

/-- C9: the store scenario.  Adding a voxel stored at integer position
`(5,0,5)` makes `occupied(5,0,5)` true (under any floored query mapping to
that cell, and overwriting any earlier voxel at the key), and removing it
by id makes `occupied(5,0,5)` false again provided no other voxel in the
store sits at that key or shares the id. -/
theorem C9_voxel_store_roundtrip (vs : List Voxel) (v : Voxel)
    (hpos : v.position = ⟨(5 : ℚ), (0 : ℚ), (5 : ℚ)⟩)
    (hclean : ∀ w ∈ vs, w.position ≠ ⟨(5 : ℚ), (0 : ℚ), (5 : ℚ)⟩) :
    mapFind (addVoxel vs v) v.position = some v ∧
    isVoxelAt (addVoxel vs v) 5 0 5 = true ∧
    isVoxelAt (addVoxel vs v) (5 + 3 / 10) (9 / 10) (5 + 7 / 10) = true ∧
    isVoxelAt (removeVoxel (addVoxel vs v) v.id) 5 0 5 = false := by
  refine ⟨mapFind_addVoxel_self vs v, ?_, ?_, ?_⟩
  · exact isVoxelAt_addVoxel_int vs v 5 0 5 (by exact_mod_cast hpos) 5 0 5
      (by norm_num) (by norm_num) (by norm_num)
  · exact isVoxelAt_addVoxel_int vs v 5 0 5 (by exact_mod_cast hpos) _ _ _
      (by norm_num [Int.floor_eq_iff]) (by norm_num [Int.floor_eq_iff])
      (by norm_num [Int.floor_eq_iff])
  · refine isVoxelAt_of_not_mem _ 5 0 5 ?_
    intro w hw
    have h50 : (⟨(⌊(5 : ℚ)⌋ : ℚ), (⌊(0 : ℚ)⌋ : ℚ), (⌊(5 : ℚ)⌋ : ℚ)⟩ : Vec3)
        = ⟨(5 : ℚ), (0 : ℚ), (5 : ℚ)⟩ := by norm_num
    rw [h50]
    simp only [removeVoxel, addVoxel, List.filter_append, List.mem_append,
      List.mem_filter, List.mem_singleton] at hw
    rcases hw with ⟨hmem, _⟩ | ⟨rfl, hid⟩
    · exact hclean w hmem
    · simp at hid

/-- Witness for C9 at a concrete store. -/
theorem C9_voxel_store_roundtrip_witness :
    mapFind (addVoxel [] ⟨1, ⟨5, 0, 5⟩, "red", 1, false⟩) ⟨5, 0, 5⟩
      = some ⟨1, ⟨5, 0, 5⟩, "red", 1, false⟩ ∧
    isVoxelAt (addVoxel [] ⟨1, ⟨5, 0, 5⟩, "red", 1, false⟩) 5 0 5 = true ∧
    isVoxelAt (addVoxel [] ⟨1, ⟨5, 0, 5⟩, "red", 1, false⟩)
      (5 + 3 / 10) (9 / 10) (5 + 7 / 10) = true ∧
    isVoxelAt (removeVoxel (addVoxel [] ⟨1, ⟨5, 0, 5⟩, "red", 1, false⟩) 1) 5 0 5
      = false := by
  exact C9_voxel_store_roundtrip [] ⟨1, ⟨5, 0, 5⟩, "red", 1, false⟩ rfl
    (by intro w hw; cases hw)

/-! ## Character movement (`updatePlayer`, lines 1941-1993) -/

/-- Player kinematic state. -/
structure PlayerState where
  pos : Vec3
  vel : Vec3
  width : ℚ
  height : ℚ
  grounded : Bool
  deriving DecidableEq, Repr

/-- The five floor sample offsets of the descent check (line 1947):
center plus the four footprint corners. -/
def footPoints (halfWidth : ℚ) : List (ℚ × ℚ) :=
  [(0, 0), (-halfWidth, -halfWidth), (halfWidth, -halfWidth),
   (-halfWidth, halfWidth), (halfWidth, halfWidth)]

/-- First footprint offset whose floor sample at `next.y - height/2` hits a
voxel (the loop at lines 1948-1955 breaks at the first hit). -/
def floorHit (voxels : List Voxel) (next : Vec3) (halfWidth height : ℚ) :
    Option (ℚ × ℚ) :=
  (footPoints halfWidth).find? fun p =>
    isVoxelAt voxels (next.x + p.1) (next.y - height / 2) (next.z + p.2)

/-- Vertical resolution (lines 1946-1956): while descending, a floor hit
zeroes the vertical velocity, snaps `y` to
`⌊y - height/2⌋ + 0.5 + height/2` and sets the grounded flag.
Returns (resolved next position, vertical velocity, grounded). -/
def verticalResolve (voxels : List Voxel) (next : Vec3) (vy width height : ℚ) :
    Vec3 × ℚ × Bool :=
  if vy ≤ 0 then
    match floorHit voxels next (width / 2) height with
    | some _ =>
        (⟨next.x, (⌊next.y - height / 2⌋ : ℚ) + 1 / 2 + height / 2, next.z⟩,
         0, true)
    | none => (next, vy, false)
  else (next, vy, false)

/-- `attemptMove` (lines 1960-1985): try the direct horizontal target at the
current height; on collision and only while grounded, retry one block
higher (step-up).  Returns the committed position, or `none` if blocked. -/
def attemptMove (voxels : List Voxel) (width height : ℚ) (grounded : Bool)
    (currentY targetX targetZ : ℚ) : Option Vec3 :=
  if ¬ checkCharacterVoxelCollision voxels ⟨targetX, currentY, targetZ⟩ width height then
    some ⟨targetX, currentY, targetZ⟩
  else if grounded &&
      ¬ checkCharacterVoxelCollision voxels ⟨targetX, currentY + 1, targetZ⟩ width height then
    some ⟨targetX, currentY + 1, targetZ⟩
  else
    none

/-- The horizontal cascade (lines 1987-1993): full target, then slide along
X keeping the old Z, then slide along Z keeping the old X. -/
def horizontalResolve (voxels : List Voxel) (width height : ℚ) (grounded : Bool)
    (cur : Vec3) (nextX nextZ : ℚ) : Vec3 :=
  match attemptMove voxels width height grounded cur.y nextX nextZ with
  | some p => p
  | none =>
    match attemptMove voxels width height grounded cur.y nextX cur.z with
    | some p => p
    | none =>
      match attemptMove voxels width height grounded cur.y cur.x nextZ with
      | some p => p
      | none => cur

/-- Gravity then explicit Euler integration, then vertical resolution, then
the horizontal cascade; horizontal input is already in `vel.x`/`vel.z`.
The integrated candidate position (`nextPos`, line 1942) after gravity has
been applied to the vertical velocity (line 1941). -/
def playerNext (p : PlayerState) (delta : ℚ) : Vec3 :=
  ⟨p.pos.x + p.vel.x * delta,
   p.pos.y + (p.vel.y + (-20) * delta) * delta,
   p.pos.z + p.vel.z * delta⟩

/-- One frame of `updatePlayer` physics (lines 1941-1993). -/
def updatePlayer (voxels : List Voxel) (p : PlayerState) (delta : ℚ) :
    PlayerState :=
  let vy := p.vel.y + (-20) * delta
  let next : Vec3 := playerNext p delta
  let r := verticalResolve voxels next vy p.width p.height
  let cur : Vec3 := ⟨p.pos.x, r.1.y, p.pos.z⟩
  let fin := horizontalResolve voxels p.width p.height r.2.2 cur next.x next.z
  { pos := fin, vel := ⟨p.vel.x, r.2.1, p.vel.z⟩,
    width := p.width, height := p.height, grounded := r.2.2 }

/-! ## C1: descent resolution against the floor -/

theorem floorHit_sample_occupied (voxels : List Voxel) (next : Vec3)
    (halfWidth height : ℚ) (dx dz : ℚ)
    (h : floorHit voxels next halfWidth height = some (dx, dz)) :
    isVoxelAt voxels (next.x + dx)
      ((⌊next.y - height / 2⌋ : ℚ) + 1 / 2) (next.z + dz) = true := by
  have hp := List.find?_some h
  have hfl : (⌊((⌊next.y - height / 2⌋ : ℚ)) + 1 / 2⌋ : ℤ)
      = ⌊next.y - height / 2⌋ := by
    rw [Int.floor_int_add]
    norm_num
  simp only [isVoxelAt, mapHas] at hp ⊢
  rw [hfl]
  exact hp

/-- C1 (amended): during a descending update (`velocity.y ≤ 0` after
gravity) with a floor sample hit among the five footprint points, the
resolver zeroes the vertical velocity, snaps `y` to
`⌊y - height/2⌋ + 0.5 + height/2`, and marks the agent grounded; the foot
plane then rests at `⌊y - height/2⌋ + 0.5`, i.e. the sampled footprint
point that detected the floor still lies inside the occupied floor cell
(the engine's horizontal collision samples instead start `0.51` above the
foot plane). -/
theorem C1_floor_landing (voxels : List Voxel) (p : PlayerState) (delta : ℚ)
    (hd : 0 ≤ delta) (hvy : p.vel.y ≤ 0) (dx dz : ℚ)
    (hhit : floorHit voxels (playerNext p delta) (p.width / 2) p.height
      = some (dx, dz)) :
    (updatePlayer voxels p delta).vel.y = 0 ∧
    (updatePlayer voxels p delta).grounded = true ∧
    (verticalResolve voxels (playerNext p delta) (p.vel.y + (-20) * delta)
        p.width p.height).1.y
      = (⌊(playerNext p delta).y - p.height / 2⌋ : ℚ) + 1 / 2 + p.height / 2 ∧
    isVoxelAt voxels ((playerNext p delta).x + dx)
      ((verticalResolve voxels (playerNext p delta) (p.vel.y + (-20) * delta)
          p.width p.height).1.y - p.height / 2)
      ((playerNext p delta).z + dz) = true := by
  have hvy' : p.vel.y + (-20) * delta ≤ 0 := by nlinarith
  have hres : verticalResolve voxels (playerNext p delta)
      (p.vel.y + (-20) * delta) p.width p.height
      = (⟨(playerNext p delta).x,
          (⌊(playerNext p delta).y - p.height / 2⌋ : ℚ) + 1 / 2 + p.height / 2,
          (playerNext p delta).z⟩, 0, true) := by
    unfold verticalResolve
    rw [if_pos hvy', hhit]
  refine ⟨?_, ?_, ?_, ?_⟩
  · simp only [updatePlayer, hres]
  · simp only [updatePlayer, hres]
  · rw [hres]
  · rw [hres]
    have : (⌊(playerNext p delta).y - p.height / 2⌋ : ℚ) + 1 / 2 + p.height / 2
        - p.height / 2 = (⌊(playerNext p delta).y - p.height / 2⌋ : ℚ) + 1 / 2 := by
      ring
    rw [this]
    exact floorHit_sample_occupied voxels (playerNext p delta) (p.width / 2)
      p.height dx dz hhit

/-- The one-voxel world of the concrete landing scenario. -/
def voxelsC1 : List Voxel := [⟨1, ⟨0, 0, 0⟩, "gray", 1, false⟩]

/-- A player 2.5 units up, at rest, above the voxel at the origin. -/
def playerC1 : PlayerState :=
  { pos := ⟨0, 5 / 2, 0⟩, vel := ⟨0, 0, 0⟩, width := 8 / 5, height := 18 / 5,
    grounded := false }

/-- Witness for C1 at the concrete landing scenario. -/
theorem C1_floor_landing_witness :
    (0 : ℚ) ≤ 1 / 60 ∧ playerC1.vel.y ≤ 0 ∧
    floorHit voxelsC1 (playerNext playerC1 (1 / 60)) (playerC1.width / 2)
      playerC1.height = some (0, 0) ∧
    (updatePlayer voxelsC1 playerC1 (1 / 60)).vel.y = 0 ∧
    (updatePlayer voxelsC1 playerC1 (1 / 60)).grounded = true := by
  have h1 : (0 : ℚ) ≤ 1 / 60 := by norm_num
  have h2 : playerC1.vel.y ≤ 0 := by norm_num [playerC1]
  have h3 : floorHit voxelsC1 (playerNext playerC1 (1 / 60)) (playerC1.width / 2)
      playerC1.height = some (0, 0) := by
    norm_num [floorHit, footPoints, isVoxelAt, mapHas, mapFind, voxelsC1,
      playerC1, playerNext, List.find?]
  have h := C1_floor_landing voxelsC1 playerC1 (1 / 60) h1 h2 0 0 h3
  exact ⟨h1, h2, h3, h.1, h.2.1⟩

/-- C1 (counterexample to the claim as stated): in the concrete landing
scenario the update's hypotheses hold, yet after resolution the footprint
center sample at `y - height/2` DOES lie inside an occupied voxel — the
snap `⌊y - height/2⌋ + 0.5 + height/2` rests the foot plane at the middle
height of the floor cell, which `isVoxelAt` reports as occupied. -/
theorem C1_footprint_counterexample :
    playerC1.vel.y ≤ 0 ∧
    (floorHit voxelsC1 (playerNext playerC1 (1 / 60)) (playerC1.width / 2)
      playerC1.height).isSome = true ∧
    isVoxelAt voxelsC1 (updatePlayer voxelsC1 playerC1 (1 / 60)).pos.x
      ((updatePlayer voxelsC1 playerC1 (1 / 60)).pos.y - playerC1.height / 2)
      (updatePlayer voxelsC1 playerC1 (1 / 60)).pos.z = true := by
  refine ⟨by norm_num [playerC1], ?_, ?_⟩
  · norm_num [floorHit, footPoints, isVoxelAt, mapHas, mapFind, voxelsC1,
      playerC1, playerNext, List.find?]
  · norm_num [updatePlayer, verticalResolve, horizontalResolve, attemptMove,
      checkCharacterVoxelCollision, characterSamplePoints, floorHit, footPoints,
      isVoxelAt, mapHas, mapFind, voxelsC1, playerC1, playerNext, List.find?,
      List.any]

/-! ## C7: step-up onto a single-block ledge, then axis sliding -/

/-- C7: a grounded agent whose direct horizontal move collides but whose
position one block higher is clear is not blocked: the cascade commits the
target X/Z with `y` raised by exactly one block.  When the raised retry is
also blocked, the cascade tries the X axis alone and then the Z axis alone,
in that order. -/
theorem C7_step_up (voxels : List Voxel) (width height : ℚ) (cur : Vec3)
    (nextX nextZ : ℚ)
    (hblock : checkCharacterVoxelCollision voxels ⟨nextX, cur.y, nextZ⟩
      width height = true)
    (hfree : checkCharacterVoxelCollision voxels ⟨nextX, cur.y + 1, nextZ⟩
      width height = false) :
    horizontalResolve voxels width height true cur nextX nextZ
      = ⟨nextX, cur.y + 1, nextZ⟩ ∧
    attemptMove voxels width height true cur.y nextX nextZ
      = some ⟨nextX, cur.y + 1, nextZ⟩ ∧
    (∀ grounded : Bool,
      attemptMove voxels width height grounded cur.y nextX nextZ = none →
      horizontalResolve voxels width height grounded cur nextX nextZ
        = (match attemptMove voxels width height grounded cur.y nextX cur.z with
           | some p => p
           | none =>
             match attemptMove voxels width height grounded cur.y cur.x nextZ with
             | some p => p
             | none => cur)) := by
  have hatt : attemptMove voxels width height true cur.y nextX nextZ
      = some ⟨nextX, cur.y + 1, nextZ⟩ := by
    unfold attemptMove
    rw [if_neg (by simp [hblock]), if_pos (by simp [hfree])]
  refine ⟨?_, hatt, ?_⟩
  · unfold horizontalResolve
    rw [hatt]
  · intro grounded hnone
    unfold horizontalResolve
    rw [hnone]

/-- World of the step-up witness: a two-block floor and a one-block ledge. -/
def voxelsC7 : List Voxel :=
  [⟨1, ⟨0, 0, 0⟩, "gray", 1, false⟩, ⟨2, ⟨1, 0, 0⟩, "gray", 1, false⟩,
   ⟨3, ⟨1, 1, 0⟩, "gray", 1, false⟩]

/-- Witness for C7: a grounded player standing on the floor cell at the
origin steps onto the ledge cell at `x = 1`, ending one block higher. -/
theorem C7_step_up_witness :
    checkCharacterVoxelCollision voxelsC7 ⟨1, 23 / 10, 0⟩ (8 / 5) (18 / 5)
      = true ∧
    checkCharacterVoxelCollision voxelsC7 ⟨1, 23 / 10 + 1, 0⟩ (8 / 5) (18 / 5)
      = false ∧
    horizontalResolve voxelsC7 (8 / 5) (18 / 5) true ⟨0, 23 / 10, 0⟩ 1 0
      = ⟨1, 23 / 10 + 1, 0⟩ := by
  have hblock : checkCharacterVoxelCollision voxelsC7 ⟨1, 23 / 10, 0⟩ (8 / 5)
      (18 / 5) = true := by
    norm_num [checkCharacterVoxelCollision, characterSamplePoints, isVoxelAt,
      mapHas, mapFind, voxelsC7, List.filter, Vec3.mk.injEq, List.any]
  have hfree : checkCharacterVoxelCollision voxelsC7 ⟨1, 23 / 10 + 1, 0⟩ (8 / 5)
      (18 / 5) = false := by
    norm_num [checkCharacterVoxelCollision, characterSamplePoints, isVoxelAt,
      mapHas, mapFind, voxelsC7, List.filter, Vec3.mk.injEq, List.any]
  have h := C7_step_up voxelsC7 (8 / 5) (18 / 5) ⟨0, 23 / 10, 0⟩ 1 0 hblock hfree
  exact ⟨hblock, hfree, h.1⟩

/-! ## C4: spring-damper displacement decay (lines 1648-1651, 1759-1763)

The pedestrian knockback offset evolves per axis by
`offsetVelocity += (-k*offset)*dt; offsetVelocity *= damping;
offset += offsetVelocity*dt` with `k = 1.5` and `damping = 0.95`. -/

/-- One spring-damper update of a single axis: returns the new
(offset, offsetVelocity). -/
def pedSpring (delta k damping x v : ℚ) : ℚ × ℚ :=
  let v2 := (v + -k * x * delta) * damping
  (x + v2 * delta, v2)

/-- The pedestrian spring update at the claim's 60 Hz tick. -/
def springStep (p : ℚ × ℚ) : ℚ × ℚ :=
  pedSpring (1 / 60) (3 / 2) (19 / 20) p.1 p.2

/-- Iterated spring updates from offset `x0` at rest. -/
def springIter (x0 : ℚ) : ℕ → ℚ × ℚ
  | 0 => (x0, 0)
  | n + 1 => springStep (springIter x0 n)

theorem springStep_fst (p : ℚ × ℚ) :
    (springStep p).1 = p.1 + (19 / 1200) * p.2 - (19 / 48000) * p.1 := by
  simp only [springStep, pedSpring]
  ring

theorem springStep_snd (p : ℚ × ℚ) :
    (springStep p).2 = (19 / 20) * p.2 - (19 / 800) * p.1 := by
  simp only [springStep, pedSpring]
  ring

/-- The region `0 < x`, `-x ≤ v ≤ 0` is invariant under the spring step, on
which the offset strictly decreases with ratio at most `47981/48000`. -/
theorem springStep_inv (p : ℚ × ℚ) (hx : 0 < p.1) (hl : -p.1 ≤ p.2)
    (hu : p.2 ≤ 0) :
    0 < (springStep p).1 ∧ -(springStep p).1 ≤ (springStep p).2 ∧
    (springStep p).2 ≤ 0 ∧ (springStep p).1 < p.1 ∧
    (springStep p).1 ≤ (47981 / 48000) * p.1 := by
  rw [springStep_fst, springStep_snd]
  refine ⟨by linarith, by linarith, by linarith, by linarith, by linarith⟩

theorem springIter_facts (x0 : ℚ) (h : 0 < x0) : ∀ n : ℕ,
    0 < (springIter x0 n).1 ∧ -(springIter x0 n).1 ≤ (springIter x0 n).2 ∧
    (springIter x0 n).2 ≤ 0 ∧
    (springIter x0 n).1 ≤ x0 * (47981 / 48000) ^ n := by
  intro n
  induction n with
  | zero => exact ⟨h, by simp [springIter]; linarith, by simp [springIter],
      by simp [springIter]⟩
  | succ n ih =>
    obtain ⟨h1, h2, h3, h4⟩ := ih
    obtain ⟨g1, g2, g3, g4, g5⟩ := springStep_inv (springIter x0 n) h1 h2 h3
    refine ⟨g1, g2, g3, ?_⟩
    show (springStep (springIter x0 n)).1 ≤ x0 * (47981 / 48000) ^ (n + 1)
    calc (springStep (springIter x0 n)).1
        ≤ (47981 / 48000) * (springIter x0 n).1 := g5
      _ ≤ (47981 / 48000) * (x0 * (47981 / 48000) ^ n) := by
          apply mul_le_mul_of_nonneg_left h4
          norm_num
      _ = x0 * (47981 / 48000) ^ (n + 1) := by ring

theorem springIter_strict_anti (x0 : ℚ) (h : 0 < x0) (n : ℕ) :
    (springIter x0 (n + 1)).1 < (springIter x0 n).1 := by
  obtain ⟨h1, h2, h3, _⟩ := springIter_facts x0 h n
  exact (springStep_inv (springIter x0 n) h1 h2 h3).2.2.2.1

theorem springIter_mono (x0 : ℚ) (h : 0 < x0) :
    ∀ m n : ℕ, m ≤ n → (springIter x0 n).1 ≤ (springIter x0 m).1 := by
  intro m n hmn
  induction n with
  | zero => simp_all
  | succ n ih =>
    rcases Nat.lt_or_ge m (n + 1) with hlt | hge
    · have := ih (Nat.lt_succ_iff.mp hlt)
      have h2 := springIter_strict_anti x0 h n
      linarith
    · have : m = n + 1 := le_antisymm hmn hge
      simp [this]

theorem springStep_neg (p : ℚ × ℚ) :
    springStep (-p.1, -p.2) = (-(springStep p).1, -(springStep p).2) := by
  simp only [springStep, pedSpring, Prod.mk.injEq]
  constructor <;> ring

theorem springIter_neg (x0 : ℚ) (n : ℕ) :
    springIter (-x0) n = (-(springIter x0 n).1, -(springIter x0 n).2) := by
  induction n with
  | zero => simp [springIter]
  | succ n ih =>
    show springStep (springIter (-x0) n) = _
    rw [ih]
    exact springStep_neg (springIter x0 n)

theorem springIter_pos_decay (x0 : ℚ) (h : 0 < x0) :
    ∃ N, ∀ n, N ≤ n → (springIter x0 n).1 < 1 / 100 := by
  obtain ⟨N, hN⟩ := exists_pow_lt_of_lt_one
    (x := 1 / (100 * x0)) (y := (47981 / 48000 : ℚ))
    (by positivity) (by norm_num)
  refine ⟨N, fun n hn => ?_⟩
  have h1 := (springIter_facts x0 h N).2.2.2
  have h2 : x0 * (47981 / 48000 : ℚ) ^ N < x0 * (1 / (100 * x0)) :=
    mul_lt_mul_of_pos_left hN h
  have h3 : x0 * (1 / (100 * x0)) = 1 / 100 := by
    field_simp
    ring
  have h4 := springIter_mono x0 h N n hn
  linarith

/-- C4 (amended): starting from rest (`offsetVelocity = 0`) with a nonzero
offset, the 60 Hz spring-damper update (`k = 1.5`, `damping = 0.95`, no
further impulses) strictly shrinks `|offset|` on every tick, and `|offset|`
falls below `0.01` after a bounded number of ticks (a bound depending on the
initial magnitude; the spec's "about 3 seconds" figure is indicative only). -/
theorem C4_spring_decay (x0 : ℚ) (hx : x0 ≠ 0) :
    (∀ n, |(springIter x0 (n + 1)).1| < |(springIter x0 n).1|) ∧
    (∃ N, ∀ n, N ≤ n → |(springIter x0 n).1| < 1 / 100) := by
  rcases hx.lt_or_lt with hneg | hpos
  · have hx' : 0 < -x0 := by linarith
    have habs : ∀ n, |(springIter x0 n).1| = (springIter (-x0) n).1 := by
      intro n
      have hrw : springIter x0 n = (-(springIter (-x0) n).1, -(springIter (-x0) n).2) := by
        have := springIter_neg (-x0) n
        rw [neg_neg] at this
        rw [this]
      rw [hrw]
      have hp := (springIter_facts (-x0) hx' n).1
      simp [abs_of_nonpos (by linarith : -(springIter (-x0) n).1 ≤ 0)]
    constructor
    · intro n
      rw [habs n, habs (n + 1)]
      exact springIter_strict_anti (-x0) hx' n
    · obtain ⟨N, hN⟩ := springIter_pos_decay (-x0) hx'
      exact ⟨N, fun n hn => by rw [habs n]; exact hN n hn⟩
  · have habs : ∀ n, |(springIter x0 n).1| = (springIter x0 n).1 := by
      intro n
      exact abs_of_pos (springIter_facts x0 hpos n).1
    constructor
    · intro n
      rw [habs n, habs (n + 1)]
      exact springIter_strict_anti x0 hpos n
    · obtain ⟨N, hN⟩ := springIter_pos_decay x0 hpos
      exact ⟨N, fun n hn => by rw [habs n]; exact hN n hn⟩

/-- Witness for C4 at initial offset `1`. -/
theorem C4_spring_decay_witness :
    (1 : ℚ) ≠ 0 ∧
    ((∀ n, |(springIter 1 (n + 1)).1| < |(springIter 1 n).1|) ∧
     (∃ N, ∀ n, N ≤ n → |(springIter 1 n).1| < 1 / 100)) :=
  ⟨by norm_num, C4_spring_decay 1 (by norm_num)⟩

/-- C4 (counterexample to the claim as stated): `|offset|` does NOT strictly
decrease on every tick from every state — with offset `1` and offset
velocity `10` (e.g. right after an impulse) one 60 Hz spring-damper update
grows the offset to `55581/48000 > 1`. -/
theorem C4_spring_growth_counterexample :
    |(springStep (1, 10)).1| > |(1 : ℚ)| := by
  rw [springStep_fst, abs_one, abs_of_pos (by norm_num)]
  norm_num

/-! ## C10: vehicle-vehicle impulse resolution (`updateCarCollisions`,
lines 2179-2191)

The collision normal (a normalized center-to-center direction) and the
overlap depth are geometric inputs computed with a square root; they enter
the velocity update only as parameters, so they are taken as arguments
here.  Restitution is `0.8`; the impulse is added to one velocity and
subtracted from the other. -/

/-- The elastic-bounce step: if the relative velocity along the normal is
negative (approaching), apply the impulse
`normal * (speed * -(1 + restitution) * 0.5)` to car A's velocity and its
negation to car B's. -/
def applyCarImpulse (velA velB normal : Vec3) : Vec3 × Vec3 :=
  let speed := (velA.sub velB).dot normal
  if speed < 0 then
    let impulse := normal.smul (speed * -(1 + 8 / 10) * (1 / 2))
    (velA.add impulse, velB.sub impulse)
  else
    (velA, velB)

/-- The full pair resolution: separation moves the positions (or path
offsets) along the normal by half the overlap each and leaves velocities
untouched; the impulse step then adjusts only the velocities. -/
def resolveCarPair (posA posB velA velB normal : Vec3) (overlap : ℚ) :
    Vec3 × Vec3 × Vec3 × Vec3 :=
  let separation := normal.smul (overlap * (1 / 2))
  (posA.add separation, posB.sub separation,
   (applyCarImpulse velA velB normal).1, (applyCarImpulse velA velB normal).2)

/-- C10: the impulse step adds equal and opposite impulse vectors to the two
velocities, so their vector sum is unchanged; when the cars are not
approaching the velocities are untouched; and the separation step changes
only positions, never velocities. -/
theorem C10_impulse_conserves_momentum (posA posB velA velB normal : Vec3)
    (overlap : ℚ) :
    ((applyCarImpulse velA velB normal).1).add
        ((applyCarImpulse velA velB normal).2) = velA.add velB ∧
    (¬ (velA.sub velB).dot normal < 0 →
      applyCarImpulse velA velB normal = (velA, velB)) ∧
    (resolveCarPair posA posB velA velB normal overlap).2.2.1
        = (applyCarImpulse velA velB normal).1 ∧
    (resolveCarPair posA posB velA velB normal overlap).2.2.2
        = (applyCarImpulse velA velB normal).2 := by
  refine ⟨?_, ?_, rfl, rfl⟩
  · unfold applyCarImpulse
    by_cases h : (velA.sub velB).dot normal < 0
    · rw [if_pos h]
      simp only [Vec3.add, Vec3.sub, Vec3.smul, Vec3.mk.injEq]
      refine ⟨by ring, by ring, by ring⟩
    · rw [if_neg h]
  · intro h
    unfold applyCarImpulse
    rw [if_neg h]

/-- Witness for C10 at a concrete head-on pair. -/
theorem C10_impulse_conserves_momentum_witness :
    ((applyCarImpulse ⟨1, 0, 0⟩ ⟨-1, 0, 0⟩ ⟨1, 0, 0⟩).1).add
        ((applyCarImpulse ⟨1, 0, 0⟩ ⟨-1, 0, 0⟩ ⟨1, 0, 0⟩).2)
      = (Vec3.mk 1 0 0).add ⟨-1, 0, 0⟩ :=
  (C10_impulse_conserves_momentum ⟨0, 0, 0⟩ ⟨5, 0, 0⟩ ⟨1, 0, 0⟩ ⟨-1, 0, 0⟩
    ⟨1, 0, 0⟩ 1).1

/-! ## C3: traffic-controller acceleration clamp and speed clamp
(`updateCars`, lines 2725-2733)

`MAX_ACCEL = 1.5`, `MAX_DECEL = 3.0`, gain `2.0`.  The arbitration target
speed is a real number (the car-following reduction divides an exact
distance by the safe distance); the clamp bounds hold for every value, so
it is taken as a parameter here. -/

/-- `Math.max(-MAX_DECEL, Math.min(MAX_ACCEL, (targetSpeed - speed) * 2.0))`. -/
def carAccel (targetSpeed speed : ℚ) : ℚ :=
  max (-3) (min (3 / 2) ((targetSpeed - speed) * 2))

/-- `car.speed += acceleration * delta; car.speed =
Math.max(0, Math.min(car.desiredSpeed, car.speed))`. -/
def updateCarSpeed (speed desiredSpeed accel delta : ℚ) : ℚ :=
  max 0 (min desiredSpeed (speed + accel * delta))

/-- C3: the acceleration fed into the integration step is always within
`[-maxDecel, +maxAccel] = [-3, 1.5]`, and after integration the speed is
never negative and never exceeds `desiredSpeed`. -/
theorem C3_speed_clamped (targetSpeed speed desiredSpeed delta : ℚ)
    (hd : 0 ≤ desiredSpeed) :
    -3 ≤ carAccel targetSpeed speed ∧ carAccel targetSpeed speed ≤ 3 / 2 ∧
    0 ≤ updateCarSpeed speed desiredSpeed (carAccel targetSpeed speed) delta ∧
    updateCarSpeed speed desiredSpeed (carAccel targetSpeed speed) delta
      ≤ desiredSpeed := by
  refine ⟨le_max_left _ _, ?_, le_max_left _ _, ?_⟩
  · exact max_le (by norm_num) (min_le_left _ _)
  · exact max_le hd (min_le_left _ _)

/-- Witness for C3 at concrete values. -/
theorem C3_speed_clamped_witness :
    (0 : ℚ) ≤ 10 ∧
    (-3 ≤ carAccel 0 12 ∧ carAccel 0 12 ≤ 3 / 2 ∧
     0 ≤ updateCarSpeed 12 10 (carAccel 0 12) (1 / 60) ∧
     updateCarSpeed 12 10 (carAccel 0 12) (1 / 60) ≤ 10) :=
  ⟨by norm_num, C3_speed_clamped 0 12 10 (1 / 60) (by norm_num)⟩

/-! ## C8: the 12-unit interaction distance limit -/

/-- A raycast hit against the voxel instanced mesh: distance along the ray,
the hit voxel's stored position (`getMatrixAt`), and its axis-rounded face
normal.  Presence of the hit also models `instanceId !== undefined` and a
valid face. -/
structure RayHit where
  distance : ℚ
  pos : Vec3
  normal : Vec3
  deriving DecidableEq, Repr

/-- `snapToGrid` (lines 1008-1014). -/
def snapToGrid (value size : ℚ) : ℚ :=
  if size = 1 then (jsRound value : ℚ) else (jsRound (value / size) : ℚ) * size

/-- `handleTap` build placement (lines 1016-1057): with a mesh hit, place at
the snapped `hitPosition + normal * size`; with no hit, fall back to the
ground-plane intersection point (snapped X/Z at `y = 0`).  The function
consults neither the hit distance nor the camera mode. -/
def handleTapPlacement (selectedSize : ℚ) (hit : Option RayHit)
    (groundPoint : Option Vec3) : Option Vec3 :=
  match hit with
  | some h =>
      some ⟨snapToGrid (h.pos.x + h.normal.x * selectedSize) selectedSize,
            snapToGrid (h.pos.y + h.normal.y * selectedSize) selectedSize,
            snapToGrid (h.pos.z + h.normal.z * selectedSize) selectedSize⟩
  | none =>
      match groundPoint with
      | some t =>
          some ⟨snapToGrid t.x selectedSize, 0, snapToGrid t.z selectedSize⟩
      | none => none

/-- `handleDestroy` (lines 1059-1088): outside free-camera mode a hit
farther than 12 units is rejected; otherwise the voxel stored under the hit
position's exact key is removed by id. -/
def handleDestroyTarget (freeCamera : Bool) (hit : Option RayHit)
    (voxels : List Voxel) : Option ℤ :=
  match hit with
  | some h =>
      if ¬ freeCamera = true ∧ h.distance > 12 then none
      else (mapFind voxels h.pos).map (fun v => v.id)
  | none => none

/-- `updateTargetBlock` (lines 2077-2106): the build/destroy target used by
the imperative `build`/`destroy` handles; outside free-camera mode hits
beyond 12 units yield no target. -/
def updateTargetBlock (isInCar freeCamera : Bool) (hit : Option RayHit) :
    Option (Vec3 × Vec3) :=
  if isInCar then none
  else
    match hit with
    | some h =>
        if ¬ freeCamera = true ∧ h.distance > 12 then none
        else some (h.pos, h.normal)
    | none => none

/-- C8 (amended): outside free-camera mode, destroy taps and the
target-block raycast reject hits beyond 12 units (no voxel is removed and
no target is offered), but the tap-to-build path still places a voxel
regardless of the hit distance. -/
theorem C8_distance_limit (h : RayHit) (voxels : List Voxel) (size : ℚ)
    (g : Option Vec3) (hdist : h.distance > 12) :
    handleDestroyTarget false (some h) voxels = none ∧
    updateTargetBlock false false (some h) = none ∧
    (handleTapPlacement size (some h) g).isSome = true := by
  refine ⟨?_, ?_, rfl⟩
  · simp [handleDestroyTarget, hdist]
  · simp [updateTargetBlock, hdist]

/-- Witness for C8 at a concrete far hit. -/
theorem C8_distance_limit_witness :
    (20 : ℚ) > 12 ∧
    handleDestroyTarget false (some ⟨20, ⟨0, 0, 0⟩, ⟨0, 1, 0⟩⟩) voxelsC1 = none ∧
    updateTargetBlock false false (some ⟨20, ⟨0, 0, 0⟩, ⟨0, 1, 0⟩⟩) = none ∧
    (handleTapPlacement 1 (some ⟨20, ⟨0, 0, 0⟩, ⟨0, 1, 0⟩⟩) none).isSome = true := by
  have h := C8_distance_limit ⟨20, ⟨0, 0, 0⟩, ⟨0, 1, 0⟩⟩ voxelsC1 1 none
    (by norm_num)
  exact ⟨by norm_num, h.1, h.2.1, h.2.2⟩

/-- C8 (counterexample to the claim as stated): a build tap whose raycast
hit lies 20 units away (beyond the 12-unit limit), outside free-camera
mode, is NOT rejected — `handleTap` performs no distance check and places a
voxel above the hit block. -/
theorem C8_far_build_counterexample :
    (20 : ℚ) > 12 ∧
    handleTapPlacement 1 (some ⟨20, ⟨0, 0, 0⟩, ⟨0, 1, 0⟩⟩) none
      = some ⟨0, 1, 0⟩ := by
  constructor
  · norm_num
  · norm_num [handleTapPlacement, snapToGrid, jsRound]

/-! ## Path following (`updatePedestrians`, lines 1706-1777, and the car
progress update of `updateCars`, lines 2736-2752) -/

theorem ratTrunc_eq_floor (a : ℚ) (ha : 0 ≤ a) : (ratTrunc a : ℤ) = ⌊a⌋ := by
  rw [ratTrunc, Rat.floor_def]
  exact Int.tdiv_eq_ediv (Rat.num_nonneg.mpr ha) (by positivity)

theorem jsMod_one_bounds (a : ℚ) (ha : 0 ≤ a) :
    0 ≤ jsMod a 1 ∧ jsMod a 1 < 1 := by
  have h : jsMod a 1 = Int.fract a := by
    rw [jsMod, div_one, ratTrunc_eq_floor a ha, Int.fract]
    ring
  rw [h]
  exact ⟨Int.fract_nonneg a, Int.fract_lt_one a⟩

/-- A parametric curve as the engine consumes it: `getPointAt` on `[0,1]`
and an arc length.  The arc length of a `CatmullRomCurve3` is a real
number; the model carries it as a rational parameter (every claim below is
insensitive to its exact value, only to its sign).  The optional `id`
models JavaScript object identity (`path === ped.path`): stored sidewalk
curves carry distinct `some` ids, a synthesized bridge carries `none`. -/
structure PathCurve where
  id : Option ℕ
  pointAt : ℚ → Vec3
  length : ℚ

/-- A candidate endpoint found during rerouting (lines 1725-1736): the
curve, which end (`startT ∈ {0,1}`), and the squared distance from the
pedestrian (the code compares plain distances against the radius 40 and
tolerance 2; squaring both sides preserves each comparison). -/
structure Cand where
  path : PathCurve
  startT : ℚ
  dSq : ℚ

/-- A path-following pedestrian. -/
structure Ped where
  pos : Vec3
  path : PathCurve
  progress : ℚ
  speed : ℚ
  offset : Vec3
  dispVel : Vec3

/-- Candidate collection (lines 1727-1736): every endpoint of every other
curve within the search radius 40, start endpoint pushed before end
endpoint, in list order. -/
def candidatesFor : List PathCurve → Option ℕ → Vec3 → List Cand
  | [], _, _ => []
  | p :: ps, curId, curPos =>
      if p.id = curId then candidatesFor ps curId curPos
      else
        (if Vec3.distSq curPos (p.pointAt 0) < 1600 then
          [⟨p, 0, Vec3.distSq curPos (p.pointAt 0)⟩] else []) ++
        (if Vec3.distSq curPos (p.pointAt 1) < 1600 then
          [⟨p, 1, Vec3.distSq curPos (p.pointAt 1)⟩] else []) ++
        candidatesFor ps curId curPos

/-- The synthesized two-point bridge curve (line 1742,
`new THREE.CatmullRomCurve3([currentPos, endpoint])`, whose arc-length
parametrization of two control points is the straight segment).  Its true
arc length is `√(distSq a b)`; the model stores the squared distance, which
is positive exactly when the length is. -/
def mkBridge (a b : Vec3) : PathCurve :=
  { id := none,
    pointAt := fun t =>
      ⟨a.x + (b.x - a.x) * t, a.y + (b.y - a.y) * t, a.z + (b.z - a.z) * t⟩,
    length := Vec3.distSq a b }

/-- Rerouting at a progress boundary (lines 1720-1753).  `choice` selects
the random candidate (`pickRandom`); `boundary` is the clamped progress (0
or 1).  With no candidate, the signed speed flips (line 1752). -/
def pedReroute (paths : List PathCurve) (choice : ℕ) (ped : Ped)
    (boundary : ℚ) : PathCurve × ℚ × ℚ :=
  match (candidatesFor paths ped.path.id ped.pos).get?
      (choice % (candidatesFor paths ped.path.id ped.pos).length) with
  | none => (ped.path, boundary, -ped.speed)
  | some c =>
      if c.dSq > 4 then
        (mkBridge ped.pos (c.path.pointAt c.startT), 0, |ped.speed|)
      else
        (c.path, c.startT, if c.startT = 0 then |ped.speed| else -|ped.speed|)

/-- Progress advance and boundary handling (lines 1706-1753): returns the
new (path, progress, speed). -/
def pedAdvance (paths : List PathCurve) (choice : ℕ) (delta : ℚ) (ped : Ped) :
    PathCurve × ℚ × ℚ :=
  if ped.speed > 0 ∧ ped.progress + ped.speed / ped.path.length * delta ≥ 1 then
    pedReroute paths choice ped 1
  else if ped.speed < 0 ∧ ped.progress + ped.speed / ped.path.length * delta ≤ 0 then
    pedReroute paths choice ped 0
  else
    (ped.path, ped.progress + ped.speed / ped.path.length * delta, ped.speed)

/-- One tick of a pedestrian's path logic (lines 1706-1777): when the curve
has positive length, advance/reroute, apply the spring-damper displacement
per axis, place the mesh at `pathPosition + offset`, then clamp a negative
vertical offset to zero (line 1767, after the position was written). -/
def updatePedestrian (paths : List PathCurve) (choice : ℕ) (delta : ℚ)
    (ped : Ped) : Ped :=
  if 0 < ped.path.length then
    let a := pedAdvance paths choice delta ped
    let ox := pedSpring delta (3 / 2) (19 / 20) ped.offset.x ped.dispVel.x
    let oy := pedSpring delta (3 / 2) (19 / 20) ped.offset.y ped.dispVel.y
    let oz := pedSpring delta (3 / 2) (19 / 20) ped.offset.z ped.dispVel.z
    { pos := (a.1.pointAt a.2.1).add ⟨ox.1, oy.1, oz.1⟩,
      path := a.1, progress := a.2.1, speed := a.2.2,
      offset := if oy.1 < 0 then ⟨ox.1, 0, oz.1⟩ else ⟨ox.1, oy.1, oz.1⟩,
      dispVel := ⟨ox.2, oy.2, oz.2⟩ }
  else ped

/-- The autonomous car progress update (lines 2736-2739): wraparound by the
JS remainder. -/
def updateCarProgress (pathLength progress speed delta : ℚ) : ℚ :=
  if 0 < pathLength then jsMod (progress + speed / pathLength * delta) 1
  else progress

theorem candidatesFor_startT {paths : List PathCurve} {curId : Option ℕ}
    {curPos : Vec3} {c : Cand} (h : c ∈ candidatesFor paths curId curPos) :
    c.startT = 0 ∨ c.startT = 1 := by
  induction paths with
  | nil => simp [candidatesFor] at h
  | cons p ps ih =>
    rw [candidatesFor] at h
    split at h
    · exact ih h
    · simp only [List.mem_append] at h
      rcases h with (h | h) | h
      · split at h
        · simp only [List.mem_singleton] at h
          subst h
          exact Or.inl rfl
        · cases h
      · split at h
        · simp only [List.mem_singleton] at h
          subst h
          exact Or.inr rfl
        · cases h
      · exact ih h

theorem updatePedestrian_fields (paths : List PathCurve) (choice : ℕ)
    (delta : ℚ) (ped : Ped) (hlen : 0 < ped.path.length) :
    (updatePedestrian paths choice delta ped).path
      = (pedAdvance paths choice delta ped).1 ∧
    (updatePedestrian paths choice delta ped).progress
      = (pedAdvance paths choice delta ped).2.1 ∧
    (updatePedestrian paths choice delta ped).speed
      = (pedAdvance paths choice delta ped).2.2 := by
  unfold updatePedestrian
  rw [if_pos hlen]
  exact ⟨rfl, rfl, rfl⟩

theorem pedReroute_progress_bounds (paths : List PathCurve) (choice : ℕ)
    (ped : Ped) (boundary : ℚ) (hb0 : 0 ≤ boundary) (hb1 : boundary ≤ 1) :
    0 ≤ (pedReroute paths choice ped boundary).2.1 ∧
    (pedReroute paths choice ped boundary).2.1 ≤ 1 := by
  unfold pedReroute
  cases hg : (candidatesFor paths ped.path.id ped.pos).get?
      (choice % (candidatesFor paths ped.path.id ped.pos).length) with
  | none => exact ⟨hb0, hb1⟩
  | some c =>
    have hmem : c ∈ candidatesFor paths ped.path.id ped.pos :=
      List.get?_mem hg
    dsimp only
    split
    · exact ⟨le_refl 0, by norm_num⟩
    · show 0 ≤ c.startT ∧ c.startT ≤ 1
      rcases candidatesFor_startT hmem with h | h <;> rw [h] <;> norm_num

theorem pedAdvance_progress_bounds (paths : List PathCurve) (choice : ℕ)
    (delta : ℚ) (ped : Ped) (hd : 0 ≤ delta) (hlen : 0 < ped.path.length)
    (h0 : 0 ≤ ped.progress) (h1 : ped.progress ≤ 1) :
    0 ≤ (pedAdvance paths choice delta ped).2.1 ∧
    (pedAdvance paths choice delta ped).2.1 ≤ 1 := by
  unfold pedAdvance
  split
  · exact pedReroute_progress_bounds paths choice ped 1 (by norm_num) le_rfl
  · split
    · exact pedReroute_progress_bounds paths choice ped 0 le_rfl (by norm_num)
    · next hc1 hc2 =>
      simp only
      rcases lt_trichotomy ped.speed 0 with hs | hs | hs
      · have hq : ped.speed / ped.path.length ≤ 0 :=
          div_nonpos_iff.mpr (Or.inr ⟨hs.le, hlen.le⟩)
        have hq2 : ped.speed / ped.path.length * delta ≤ 0 := by nlinarith
        constructor
        · by_contra hneg
          push_neg at hneg
          exact hc2 ⟨hs, by linarith⟩
        · linarith
      · simp [hs]
        constructor <;> linarith
      · have hq : 0 ≤ ped.speed / ped.path.length :=
          div_nonneg hs.le hlen.le
        have hq2 : 0 ≤ ped.speed / ped.path.length * delta := by nlinarith
        constructor
        · linarith
        · by_contra hneg
          push_neg at hneg
          exact hc1 ⟨hs, by linarith⟩

theorem pedAdvance_bounce (paths : List PathCurve) (choice : ℕ) (delta : ℚ)
    (ped : Ped) (hs : 0 < ped.speed)
    (hreach : 1 ≤ ped.progress + ped.speed / ped.path.length * delta)
    (hcand : candidatesFor paths ped.path.id ped.pos = []) :
    pedAdvance paths choice delta ped = (ped.path, 1, -ped.speed) := by
  unfold pedAdvance
  rw [if_pos ⟨hs, hreach⟩]
  unfold pedReroute
  rw [hcand]
  rfl

theorem pedAdvance_progress_lt_one (paths : List PathCurve) (choice : ℕ)
    (delta : ℚ) (q : Ped) (hlen : 0 < q.path.length) (hsp : q.speed < 0)
    (hprog : q.progress ≤ 1) (hd : 0 < delta)
    (hcand : candidatesFor paths q.path.id q.pos = []) :
    (pedAdvance paths choice delta q).2.1 < 1 := by
  unfold pedAdvance
  rw [if_neg (fun h => absurd h.1 (not_lt.mpr hsp.le))]
  by_cases hc : q.speed < 0 ∧ q.progress + q.speed / q.path.length * delta ≤ 0
  · rw [if_pos hc]
    unfold pedReroute
    rw [hcand]
    norm_num
  · rw [if_neg hc]
    show q.progress + q.speed / q.path.length * delta < 1
    have h2 : q.speed / q.path.length * delta < 0 :=
      mul_neg_of_neg_of_pos (div_neg_of_neg_of_pos hsp hlen) hd
    linarith

theorem pedReroute_of_get (paths : List PathCurve) (choice : ℕ) (ped : Ped)
    (boundary : ℚ) (c : Cand)
    (hget : (candidatesFor paths ped.path.id ped.pos).get?
      (choice % (candidatesFor paths ped.path.id ped.pos).length) = some c) :
    pedReroute paths choice ped boundary
      = (if c.dSq > 4 then
          (mkBridge ped.pos (c.path.pointAt c.startT), 0, |ped.speed|)
         else (c.path, c.startT,
           if c.startT = 0 then |ped.speed| else -|ped.speed|)) := by
  unfold pedReroute
  rw [hget]

theorem pedAdvance_bounce_low (paths : List PathCurve) (choice : ℕ)
    (delta : ℚ) (ped : Ped) (hs : ped.speed < 0)
    (hreach : ped.progress + ped.speed / ped.path.length * delta ≤ 0)
    (hcand : candidatesFor paths ped.path.id ped.pos = []) :
    pedAdvance paths choice delta ped = (ped.path, 0, -ped.speed) := by
  unfold pedAdvance
  rw [if_neg (fun h => absurd h.1 (not_lt.mpr hs.le)), if_pos ⟨hs, hreach⟩]
  unfold pedReroute
  rw [hcand]
  rfl

theorem pedAdvance_progress_gt_zero (paths : List PathCurve) (choice : ℕ)
    (delta : ℚ) (q : Ped) (hlen : 0 < q.path.length) (hsp : 0 < q.speed)
    (hprog : 0 ≤ q.progress) (hd : 0 < delta)
    (hcand : candidatesFor paths q.path.id q.pos = []) :
    0 < (pedAdvance paths choice delta q).2.1 := by
  unfold pedAdvance
  by_cases hc : q.speed > 0 ∧ q.progress + q.speed / q.path.length * delta ≥ 1
  · rw [if_pos hc]
    unfold pedReroute
    rw [hcand]
    norm_num
  · rw [if_neg hc, if_neg (fun h => absurd h.1 (not_lt.mpr hsp.le))]
    show 0 < q.progress + q.speed / q.path.length * delta
    have h2 : 0 < q.speed / q.path.length * delta :=
      mul_pos (div_pos hsp hlen) hd
    linarith

/-- C2: (i) a pedestrian's path progress stays in `[0,1]` across any tick;
(ii) reaching the upper boundary (ascending) with no nearby candidate
curve clamps progress to 1 and flips the sign of the speed, keeping the
curve; (iii) after such a bounce, the next tick strictly moves progress
below 1 (the follower does not stall there); (iv) reaching the lower
boundary (descending) with no nearby candidate likewise clamps progress
to 0 and flips the speed sign, keeping the curve; (v) after that bounce,
the next tick strictly moves progress above 0; (vi) an autonomous car's
wrapped progress stays in `[0,1]`. -/
theorem C2_progress_invariant :
    (∀ (paths : List PathCurve) (choice : ℕ) (delta : ℚ) (ped : Ped),
      0 ≤ delta → 0 ≤ ped.progress → ped.progress ≤ 1 →
      0 ≤ (updatePedestrian paths choice delta ped).progress ∧
      (updatePedestrian paths choice delta ped).progress ≤ 1) ∧
    (∀ (paths : List PathCurve) (choice : ℕ) (delta : ℚ) (ped : Ped),
      0 < ped.path.length → 0 < ped.speed →
      1 ≤ ped.progress + ped.speed / ped.path.length * delta →
      candidatesFor paths ped.path.id ped.pos = [] →
      (updatePedestrian paths choice delta ped).progress = 1 ∧
      (updatePedestrian paths choice delta ped).speed = -ped.speed ∧
      (updatePedestrian paths choice delta ped).path = ped.path) ∧
    (∀ (paths : List PathCurve) (choice choice2 : ℕ) (delta delta2 : ℚ)
        (ped : Ped),
      0 < ped.path.length → 0 < ped.speed →
      1 ≤ ped.progress + ped.speed / ped.path.length * delta →
      candidatesFor paths ped.path.id ped.pos = [] →
      0 < delta2 →
      candidatesFor paths (updatePedestrian paths choice delta ped).path.id
        (updatePedestrian paths choice delta ped).pos = [] →
      (updatePedestrian paths choice2 delta2
        (updatePedestrian paths choice delta ped)).progress < 1) ∧
    (∀ (paths : List PathCurve) (choice : ℕ) (delta : ℚ) (ped : Ped),
      0 < ped.path.length → ped.speed < 0 →
      ped.progress + ped.speed / ped.path.length * delta ≤ 0 →
      candidatesFor paths ped.path.id ped.pos = [] →
      (updatePedestrian paths choice delta ped).progress = 0 ∧
      (updatePedestrian paths choice delta ped).speed = -ped.speed ∧
      (updatePedestrian paths choice delta ped).path = ped.path) ∧
    (∀ (paths : List PathCurve) (choice choice2 : ℕ) (delta delta2 : ℚ)
        (ped : Ped),
      0 < ped.path.length → ped.speed < 0 →
      ped.progress + ped.speed / ped.path.length * delta ≤ 0 →
      candidatesFor paths ped.path.id ped.pos = [] →
      0 < delta2 →
      candidatesFor paths (updatePedestrian paths choice delta ped).path.id
        (updatePedestrian paths choice delta ped).pos = [] →
      0 < (updatePedestrian paths choice2 delta2
        (updatePedestrian paths choice delta ped)).progress) ∧
    (∀ pathLength progress speed delta : ℚ,
      0 ≤ progress → progress ≤ 1 → 0 ≤ speed → 0 ≤ delta →
      0 ≤ updateCarProgress pathLength progress speed delta ∧
      updateCarProgress pathLength progress speed delta ≤ 1) := by
  have hfields := updatePedestrian_fields
  refine ⟨?_, ?_, ?_, ?_, ?_, ?_⟩
  · intro paths choice delta ped hd h0 h1
    by_cases hlen : 0 < ped.path.length
    · rw [(hfields paths choice delta ped hlen).2.1]
      exact pedAdvance_progress_bounds paths choice delta ped hd hlen h0 h1
    · unfold updatePedestrian
      rw [if_neg hlen]
      exact ⟨h0, h1⟩
  · intro paths choice delta ped hlen hs hreach hcand
    have hb := pedAdvance_bounce paths choice delta ped hs hreach hcand
    obtain ⟨hp, hq, hr⟩ := hfields paths choice delta ped hlen
    rw [hp, hq, hr, hb]
    exact ⟨rfl, rfl, rfl⟩
  · intro paths choice choice2 delta delta2 ped hlen hs hreach hcand hd2 hcand2
    have hb := pedAdvance_bounce paths choice delta ped hs hreach hcand
    obtain ⟨hp, hq, hr⟩ := hfields paths choice delta ped hlen
    set q := updatePedestrian paths choice delta ped with hqdef
    have hqpath : q.path = ped.path := by rw [hp, hb]
    have hqprog : q.progress = 1 := by rw [hq, hb]
    have hqspeed : q.speed = -ped.speed := by rw [hr, hb]
    have hqlen : 0 < q.path.length := by rw [hqpath]; exact hlen
    rw [(hfields paths choice2 delta2 q hqlen).2.1]
    exact pedAdvance_progress_lt_one paths choice2 delta2 q hqlen
      (by rw [hqspeed]; linarith) (by rw [hqprog]) hd2 hcand2
  · intro paths choice delta ped hlen hs hreach hcand
    have hb := pedAdvance_bounce_low paths choice delta ped hs hreach hcand
    obtain ⟨hp, hq, hr⟩ := hfields paths choice delta ped hlen
    rw [hp, hq, hr, hb]
    exact ⟨rfl, rfl, rfl⟩
  · intro paths choice choice2 delta delta2 ped hlen hs hreach hcand hd2 hcand2
    have hb := pedAdvance_bounce_low paths choice delta ped hs hreach hcand
    obtain ⟨hp, hq, hr⟩ := hfields paths choice delta ped hlen
    set q := updatePedestrian paths choice delta ped with hqdef
    have hqpath : q.path = ped.path := by rw [hp, hb]
    have hqprog : q.progress = 0 := by rw [hq, hb]
    have hqspeed : q.speed = -ped.speed := by rw [hr, hb]
    have hqlen : 0 < q.path.length := by rw [hqpath]; exact hlen
    rw [(hfields paths choice2 delta2 q hqlen).2.1]
    exact pedAdvance_progress_gt_zero paths choice2 delta2 q hqlen
      (by rw [hqspeed]; linarith) (by rw [hqprog]) hd2 hcand2
  · intro pathLength progress speed delta h0 h1 hs hd
    unfold updateCarProgress
    split
    · next hlen =>
      have harg : 0 ≤ progress + speed / pathLength * delta := by
        have : 0 ≤ speed / pathLength * delta :=
          mul_nonneg (div_nonneg hs hlen.le) hd
        linarith
      obtain ⟨hj0, hj1⟩ := jsMod_one_bounds _ harg
      exact ⟨hj0, hj1.le⟩
    · exact ⟨h0, h1⟩

/-- A concrete sidewalk curve for witnesses. -/
def pathW : PathCurve :=
  { id := some 1, pointAt := fun _ => ⟨0, 0, 0⟩, length := 5 }

/-- A concrete pedestrian mid-curve. -/
def pedW : Ped :=
  { pos := ⟨0, 0, 0⟩, path := pathW, progress := 1 / 2, speed := 1,
    offset := ⟨0, 0, 0⟩, dispVel := ⟨0, 0, 0⟩ }

/-- A concrete pedestrian descending into the lower boundary. -/
def pedW2 : Ped :=
  { pos := ⟨0, 0, 0⟩, path := pathW, progress := 0, speed := -1,
    offset := ⟨0, 0, 0⟩, dispVel := ⟨0, 0, 0⟩ }

/-- Witness for C2 at a concrete pedestrian and tick, exercising both the
in-range invariant and the descending bounce at progress 0. -/
theorem C2_progress_invariant_witness :
    (0 : ℚ) ≤ 1 / 60 ∧ 0 ≤ pedW.progress ∧ pedW.progress ≤ 1 ∧
    (0 ≤ (updatePedestrian [] 0 (1 / 60) pedW).progress ∧
     (updatePedestrian [] 0 (1 / 60) pedW).progress ≤ 1) ∧
    pedW2.speed < 0 ∧
    ((updatePedestrian [] 0 (1 / 60) pedW2).progress = 0 ∧
     (updatePedestrian [] 0 (1 / 60) pedW2).speed = -pedW2.speed ∧
     (updatePedestrian [] 0 (1 / 60) pedW2).path = pedW2.path) :=
  ⟨by norm_num, by norm_num [pedW], by norm_num [pedW],
   C2_progress_invariant.1 [] 0 (1 / 60) pedW (by norm_num)
     (by norm_num [pedW]) (by norm_num [pedW]),
   by norm_num [pedW2],
   C2_progress_invariant.2.2.2.1 [] 0 (1 / 60) pedW2
     (by norm_num [pedW2, pathW]) (by norm_num [pedW2])
     (by norm_num [pedW2, pathW]) rfl⟩

/-! ## C6: rerouting onto a candidate curve at a boundary -/

/-- C6 (amended): on reaching either progress boundary — the upper one
while ascending or the lower one while descending — with a candidate
present, the follower continues onto the RANDOMLY CHOSEN candidate
endpoint within the search radius (not necessarily the nearest): when the
chosen candidate is farther than the tolerance (squared distance above
`2² = 4`) a forward-traversed two-point bridge curve from the current
position to that endpoint is synthesized (progress restarts at 0, speed
becomes `|speed|`); otherwise — exactly the complementary case — the
follower adopts the candidate curve itself at its matched endpoint,
moving into the curve (forward from a start endpoint, backward from an
end endpoint).  Both boundary arrivals run the identical reroute logic. -/
theorem C6_boundary_reroute (paths : List PathCurve) (choice : ℕ)
    (delta : ℚ) (ped : Ped) (c : Cand) (hlen : 0 < ped.path.length)
    (hget : (candidatesFor paths ped.path.id ped.pos).get?
      (choice % (candidatesFor paths ped.path.id ped.pos).length) = some c)
    (hreach : (0 < ped.speed ∧
        1 ≤ ped.progress + ped.speed / ped.path.length * delta) ∨
      (ped.speed < 0 ∧
        ped.progress + ped.speed / ped.path.length * delta ≤ 0)) :
    (4 < c.dSq →
      (updatePedestrian paths choice delta ped).path
        = mkBridge ped.pos (c.path.pointAt c.startT) ∧
      (updatePedestrian paths choice delta ped).path.id = none ∧
      (updatePedestrian paths choice delta ped).progress = 0 ∧
      (updatePedestrian paths choice delta ped).speed = |ped.speed|) ∧
    (¬ 4 < c.dSq →
      (updatePedestrian paths choice delta ped).path = c.path ∧
      (updatePedestrian paths choice delta ped).progress = c.startT ∧
      (updatePedestrian paths choice delta ped).speed
        = (if c.startT = 0 then |ped.speed| else -|ped.speed|)) := by
  obtain ⟨hp, hq, hr⟩ := updatePedestrian_fields paths choice delta ped hlen
  have hadv : ∃ boundary : ℚ,
      pedAdvance paths choice delta ped = pedReroute paths choice ped boundary := by
    rcases hreach with ⟨hs, hup⟩ | ⟨hs, hdown⟩
    · refine ⟨1, ?_⟩
      unfold pedAdvance
      rw [if_pos ⟨hs, hup⟩]
    · refine ⟨0, ?_⟩
      unfold pedAdvance
      rw [if_neg (fun h => absurd h.1 (not_lt.mpr hs.le)), if_pos ⟨hs, hdown⟩]
  obtain ⟨boundary, hadv⟩ := hadv
  have hrer := pedReroute_of_get paths choice ped boundary c hget
  constructor
  · intro h4
    rw [hp, hq, hr, hadv, hrer, if_pos h4]
    exact ⟨rfl, rfl, rfl, rfl⟩
  · intro h4
    rw [hp, hq, hr, hadv, hrer, if_neg h4]
    exact ⟨rfl, rfl, rfl⟩

/-- Curves of the concrete rerouting scenario: the pedestrian walks curve
1; curve 2 has both endpoints at distance 1, curve 3 at distance 1.5. -/
def pathC6a : PathCurve := { id := some 1, pointAt := fun _ => ⟨0, 0, 0⟩, length := 5 }

def pathC6b : PathCurve := { id := some 2, pointAt := fun _ => ⟨1, 0, 0⟩, length := 5 }

def pathC6c : PathCurve := { id := some 3, pointAt := fun _ => ⟨3 / 2, 0, 0⟩, length := 5 }

def pathsC6 : List PathCurve := [pathC6a, pathC6b, pathC6c]

/-- A pedestrian at the upper boundary of curve 1. -/
def pedC6 : Ped :=
  { pos := ⟨0, 0, 0⟩, path := pathC6a, progress := 1, speed := 1,
    offset := ⟨0, 0, 0⟩, dispVel := ⟨0, 0, 0⟩ }

theorem candidatesC6 :
    candidatesFor pathsC6 pedC6.path.id pedC6.pos
      = [⟨pathC6b, 0, 1⟩, ⟨pathC6b, 1, 1⟩, ⟨pathC6c, 0, 9 / 4⟩,
         ⟨pathC6c, 1, 9 / 4⟩] := by
  norm_num [pathsC6, candidatesFor, pedC6, pathC6a, pathC6b, pathC6c,
    Vec3.distSq]

/-- A pedestrian descending into the lower boundary of curve 1, at the
same position. -/
def pedC6low : Ped :=
  { pos := ⟨0, 0, 0⟩, path := pathC6a, progress := 0, speed := -1,
    offset := ⟨0, 0, 0⟩, dispVel := ⟨0, 0, 0⟩ }

/-- Witness for C6: with random choice 2 the pedestrian reaching either
boundary of curve 1 adopts curve 3's start endpoint (squared distance 9/4,
within the tolerance, so no bridge) — ascending at progress 1 and
descending at progress 0 alike. -/
theorem C6_boundary_reroute_witness :
    (0 : ℚ) < pedC6.path.length ∧ (0 : ℚ) < pedC6.speed ∧
    (updatePedestrian pathsC6 2 (1 / 60) pedC6).path = pathC6c ∧
    (updatePedestrian pathsC6 2 (1 / 60) pedC6).progress = 0 ∧
    (updatePedestrian pathsC6 2 (1 / 60) pedC6).speed = 1 ∧
    pedC6low.speed < 0 ∧
    (updatePedestrian pathsC6 2 (1 / 60) pedC6low).path = pathC6c ∧
    (updatePedestrian pathsC6 2 (1 / 60) pedC6low).progress = 0 ∧
    (updatePedestrian pathsC6 2 (1 / 60) pedC6low).speed = 1 := by
  have hget : (candidatesFor pathsC6 pedC6.path.id pedC6.pos).get?
      (2 % (candidatesFor pathsC6 pedC6.path.id pedC6.pos).length)
      = some ⟨pathC6c, 0, 9 / 4⟩ := by
    rw [candidatesC6]
    rfl
  have hgetlow : (candidatesFor pathsC6 pedC6low.path.id pedC6low.pos).get?
      (2 % (candidatesFor pathsC6 pedC6low.path.id pedC6low.pos).length)
      = some ⟨pathC6c, 0, 9 / 4⟩ := hget
  have h := C6_boundary_reroute pathsC6 2 (1 / 60) pedC6 ⟨pathC6c, 0, 9 / 4⟩
    (by norm_num [pedC6, pathC6a]) hget
    (Or.inl ⟨by norm_num [pedC6], by norm_num [pedC6, pathC6a]⟩)
  have hlow := C6_boundary_reroute pathsC6 2 (1 / 60) pedC6low
    ⟨pathC6c, 0, 9 / 4⟩ (by norm_num [pedC6low, pathC6a]) hgetlow
    (Or.inr ⟨by norm_num [pedC6low], by norm_num [pedC6low, pathC6a]⟩)
  have h2 := h.2 (by norm_num)
  have h2low := hlow.2 (by norm_num)
  refine ⟨by norm_num [pedC6, pathC6a], by norm_num [pedC6], h2.1, h2.2.1, ?_,
    by norm_num [pedC6low], h2low.1, h2low.2.1, ?_⟩
  · rw [h2.2.2]
    norm_num [pedC6]
  · rw [h2low.2.2]
    norm_num [pedC6low]

/-- C6 (counterexample to the claim as stated): the follower does NOT
continue onto the nearest candidate endpoint — in the concrete scenario
the nearest candidate (curve 2, squared distance 1) is skipped and the
random choice lands on curve 3 (squared distance 9/4). -/
theorem C6_nearest_counterexample :
    (candidatesFor pathsC6 pedC6.path.id pedC6.pos).map
      (fun c => (c.path.id, c.dSq))
      = [(some 2, 1), (some 2, 1), (some 3, 9 / 4), (some 3, 9 / 4)] ∧
    (updatePedestrian pathsC6 2 (1 / 60) pedC6).path.id = some 3 ∧
    (1 : ℚ) < 9 / 4 := by
  refine ⟨by rw [candidatesC6]; rfl, ?_, by norm_num⟩
  have hlen : (0 : ℚ) < pedC6.path.length := by norm_num [pedC6, pathC6a]
  obtain ⟨hp, _, _⟩ := updatePedestrian_fields pathsC6 2 (1 / 60) pedC6 hlen
  rw [hp]
  have hadv : pedAdvance pathsC6 2 (1 / 60) pedC6 = pedReroute pathsC6 2 pedC6 1 := by
    unfold pedAdvance
    rw [if_pos ⟨by norm_num [pedC6], by norm_num [pedC6, pathC6a]⟩]
  rw [hadv]
  unfold pedReroute
  rw [candidatesC6]
  norm_num [pathC6c]

/-! ## C5: intersection-yield arbitration (`updateCars`, lines 2691-2728)

Constants: `YIELD_DISTANCE = 25`, `INTERSECTION_RADIUS = 20`,
`MIN_DISTANCE = 6`, `SAFE_TIME_HEADWAY = 1.6`, `JAM_THRESHOLD = 3`,
`JAM_NUDGE_FACTOR = 0.5`.  All distance comparisons are translated to
squared form (`25² = 625`, `20² = 400`); the ahead test
`forward · normalize(toOther) > 0.85` multiplies out to
`0 < forward · toOther` and `289·distSq < 400·(forward · toOther)²`
(`0.85² = 289/400`; a coincident pair normalizes to the zero vector in the
source and fails the test, as it does here). -/

/-- An autonomous car as `updateCars` reads it; `forward` is
`(0,0,1)` rotated by the mesh quaternion, `pathPointAt` is
`car.path.getPointAt`. -/
structure Car where
  pos : Vec3
  forward : Vec3
  speed : ℚ
  desiredSpeed : ℚ
  timeStationary : ℚ
  progress : ℚ
  pathPointAt : ℚ → Vec3
  pathLength : ℚ

/-- Lines 2696-2700: the other car is within the yield distance and roughly
ahead of this one. -/
def isAheadCandidate (c other : Car) : Prop :=
  Vec3.distSq c.pos other.pos < 625 ∧
  0 < c.forward.dot (other.pos.sub c.pos) ∧
  289 * Vec3.distSq c.pos other.pos
    < 400 * (c.forward.dot (other.pos.sub c.pos)) ^ 2

instance (c other : Car) : Decidable (isAheadCandidate c other) := by
  unfold isAheadCandidate
  infer_instance

/-- Lines 2692-2702: squared distance to the nearest rough-ahead car, if
any. -/
def findLeadDistSq (c : Car) (others : List Car) : Option ℚ :=
  others.foldl
    (fun best o =>
      if isAheadCandidate c o then
        match best with
        | none => some (Vec3.distSq c.pos o.pos)
        | some b =>
            if Vec3.distSq c.pos o.pos < b then some (Vec3.distSq c.pos o.pos)
            else some b
      else best)
    none

/-- Line 2710: `car.path.getPointAt((car.progress + 0.05) % 1)`. -/
def lookAheadPos (c : Car) : Vec3 :=
  c.pathPointAt (jsMod (c.progress + 1 / 20) 1)

/-- Lines 2711-2714: the first registered center the lookahead point nears
while the car itself is still outside the intersection radius. -/
def approachingIntersection (c : Car) (centers : List Vec3) : Option Vec3 :=
  centers.find? fun ctr =>
    decide (Vec3.distSq (lookAheadPos c) ctr < 625 ∧
      400 < Vec3.distSq c.pos ctr)

/-- Lines 2716-2723: some other car already inside the radius has a roughly
perpendicular forward direction. -/
def yieldsAtIntersection (c : Car) (others : List Car) (ctr : Vec3) : Bool :=
  others.any fun o =>
    decide (Vec3.distSq o.pos ctr < 400 ∧
      |c.forward.dot o.forward| < 1 / 2)

/-- The arbitrated target speed, by case.  In `leadReduced` the source
assigns `desiredSpeed * (leadDistance / safeDistance)` with
`leadDistance = √leadDistSq` — an irrational value no claim needs; the
constructor records both inputs instead. -/
inductive TargetSpeed where
  | desired : TargetSpeed
  | leadReduced (leadDistSq safeDistance : ℚ) : TargetSpeed
  | yieldZero : TargetSpeed
  deriving DecidableEq, Repr

/-- Lines 2703-2709: the car-following base target speed. -/
def baseTargetSpeed (c : Car) (others : List Car) : TargetSpeed :=
  match findLeadDistSq c others with
  | none => .desired
  | some dSq =>
      if 3 < c.timeStationary then
        if 0 < 6 * (1 / 2) + c.speed * (8 / 5) ∧
            dSq < (6 * (1 / 2) + c.speed * (8 / 5)) ^ 2 then
          .leadReduced dSq (6 * (1 / 2) + c.speed * (8 / 5))
        else .desired
      else
        if 0 < 6 + c.speed * (8 / 5) ∧ dSq < (6 + c.speed * (8 / 5)) ^ 2 then
          .leadReduced dSq (6 + c.speed * (8 / 5))
        else .desired

/-- Lines 2691-2724: the full per-car target-speed arbitration — the
car-following reduction, overwritten by zero when the intersection-yield
heuristic fires. -/
def computeTargetSpeed (c : Car) (others : List Car) (centers : List Vec3) :
    TargetSpeed :=
  match approachingIntersection c centers with
  | some ctr =>
      if yieldsAtIntersection c others ctr then .yieldZero
      else baseTargetSpeed c others
  | none => baseTargetSpeed c others

/-- C5 (amended): the yield heuristic fires for a vehicle still OUTSIDE the
intersection radius whose lookahead nears the registered center, when
another vehicle already inside the radius has a roughly perpendicular
heading: that approaching vehicle's target speed is forced to zero on this
tick. -/
theorem C5_intersection_yield (A B : Car) (ctr : Vec3)
    (hlook : Vec3.distSq (lookAheadPos A) ctr < 625)
    (hout : 400 < Vec3.distSq A.pos ctr)
    (hin : Vec3.distSq B.pos ctr < 400)
    (hperp : |A.forward.dot B.forward| < 1 / 2) :
    computeTargetSpeed A [B] [ctr] = .yieldZero := by
  have happ : approachingIntersection A [ctr] = some ctr := by
    unfold approachingIntersection
    simp [List.find?, hlook, hout]
  have hyield : yieldsAtIntersection A [B] ctr = true := by
    unfold yieldsAtIntersection
    simp only [List.any_cons, List.any_nil, Bool.or_false, decide_eq_true_eq]
    exact ⟨hin, hperp⟩
  unfold computeTargetSpeed
  rw [happ]
  show (if yieldsAtIntersection A [B] ctr = true then TargetSpeed.yieldZero
        else baseTargetSpeed A [B]) = TargetSpeed.yieldZero
  rw [hyield]
  simp

/-- Approaching car of the C5 witness: outside the radius (distance 30),
lookahead 15 units from the center, heading +z. -/
def carC5out : Car :=
  { pos := ⟨0, 0, 30⟩, forward := ⟨0, 0, 1⟩, speed := 5, desiredSpeed := 10,
    timeStationary := 0, progress := 0,
    pathPointAt := fun _ => ⟨0, 0, 15⟩, pathLength := 100 }

/-- Crossing car of the C5 witness: inside the radius, heading +x. -/
def carC5in : Car :=
  { pos := ⟨0, 0, 5⟩, forward := ⟨1, 0, 0⟩, speed := 5, desiredSpeed := 10,
    timeStationary := 0, progress := 0,
    pathPointAt := fun _ => ⟨0, 0, 5⟩, pathLength := 100 }

/-- Witness for C5 at a concrete approach. -/
theorem C5_intersection_yield_witness :
    Vec3.distSq (lookAheadPos carC5out) ⟨0, 0, 0⟩ < 625 ∧
    400 < Vec3.distSq carC5out.pos ⟨0, 0, 0⟩ ∧
    Vec3.distSq carC5in.pos ⟨0, 0, 0⟩ < 400 ∧
    |carC5out.forward.dot carC5in.forward| < 1 / 2 ∧
    computeTargetSpeed carC5out [carC5in] [⟨0, 0, 0⟩] = .yieldZero := by
  have h1 : Vec3.distSq (lookAheadPos carC5out) ⟨0, 0, 0⟩ < 625 := by
    norm_num [lookAheadPos, carC5out, Vec3.distSq]
  have h2 : (400 : ℚ) < Vec3.distSq carC5out.pos ⟨0, 0, 0⟩ := by
    norm_num [carC5out, Vec3.distSq]
  have h3 : Vec3.distSq carC5in.pos ⟨0, 0, 0⟩ < 400 := by
    norm_num [carC5in, Vec3.distSq]
  have h4 : |carC5out.forward.dot carC5in.forward| < 1 / 2 := by
    norm_num [carC5out, carC5in, Vec3.dot]
  exact ⟨h1, h2, h3, h4, C5_intersection_yield carC5out carC5in ⟨0, 0, 0⟩ h1 h2 h3 h4⟩

/-- First car of the simultaneous-entry scenario: already inside the
radius, heading +z. -/
def carC5A : Car :=
  { pos := ⟨10, 0, 0⟩, forward := ⟨0, 0, 1⟩, speed := 5, desiredSpeed := 10,
    timeStationary := 0, progress := 0,
    pathPointAt := fun _ => ⟨10, 0, 0⟩, pathLength := 100 }

/-- Second car of the simultaneous-entry scenario: also inside the radius,
heading +x, perpendicular to the first. -/
def carC5B : Car :=
  { pos := ⟨0, 0, 10⟩, forward := ⟨1, 0, 0⟩, speed := 5, desiredSpeed := 10,
    timeStationary := 0, progress := 0,
    pathPointAt := fun _ => ⟨0, 0, 10⟩, pathLength := 100 }

/-- C5 (counterexample to the claim as stated): with BOTH vehicles already
inside the registered intersection's radius on perpendicular headings, the
heuristic does not fire for either — each car's own distance to the center
fails the `> INTERSECTION_RADIUS` guard, so both target speeds stay at
`desiredSpeed ≠ 0`. -/
theorem C5_simultaneous_entry_counterexample :
    Vec3.distSq carC5A.pos ⟨0, 0, 0⟩ < 400 ∧
    Vec3.distSq carC5B.pos ⟨0, 0, 0⟩ < 400 ∧
    |carC5A.forward.dot carC5B.forward| < 1 / 2 ∧
    computeTargetSpeed carC5A [carC5B] [⟨0, 0, 0⟩] = .desired ∧
    computeTargetSpeed carC5B [carC5A] [⟨0, 0, 0⟩] = .desired ∧
    carC5A.desiredSpeed ≠ 0 ∧ carC5B.desiredSpeed ≠ 0 := by
  refine ⟨by norm_num [carC5A, Vec3.distSq], by norm_num [carC5B, Vec3.distSq],
    by norm_num [carC5A, carC5B, Vec3.dot], ?_, ?_,
    by norm_num [carC5A], by norm_num [carC5B]⟩
  · have happ : approachingIntersection carC5A [⟨0, 0, 0⟩] = none := by
      norm_num [approachingIntersection, List.find?, lookAheadPos, carC5A,
        Vec3.distSq]
    have hlead : findLeadDistSq carC5A [carC5B] = none := by
      norm_num [findLeadDistSq, isAheadCandidate, carC5A, carC5B, Vec3.distSq,
        Vec3.dot, Vec3.sub, List.foldl]
    unfold computeTargetSpeed
    rw [happ]
    unfold baseTargetSpeed
    rw [hlead]
  · have happ : approachingIntersection carC5B [⟨0, 0, 0⟩] = none := by
      norm_num [approachingIntersection, List.find?, lookAheadPos, carC5B,
        Vec3.distSq]
    have hlead : findLeadDistSq carC5B [carC5A] = none := by
      norm_num [findLeadDistSq, isAheadCandidate, carC5B, carC5A, Vec3.distSq,
        Vec3.dot, Vec3.sub, List.foldl]
    unfold computeTargetSpeed
    rw [happ]
    unfold baseTargetSpeed
    rw [hlead]
